import Mathlib

/-!
Shallow embedding of `src/query/src/pipelines/new/executor/executor_worker_context.rs`
(the per-worker execution engine of the pipelined query processor), together with
theorems settling the specification claims about it.

Modelling conventions:
- `Result<usize>` becomes `Except ErrorCode Nat`.
- A boxed future is modelled by the sequence of outcomes its successive polls
  produce (`List (Poll TaskResult)`); polling consumes the head of the list.
- The shared `Arc<AtomicBool>` readiness flag is modelled by a `Bool` value;
  the store instructions performed on it are recorded in an event trace.
- The Shared Task Queue (`ExecutorTasksQueue`, whose code is not part of this
  source file) is an external collaborator: each call to its
  `push_executing_async_task` (park) operation either accepts the park
  (Rust `None`) or rejects it and hands the same task back (Rust `Some(t)`).
  Its accept/reject decisions are abstracted as a pre-chosen response list,
  one `Bool` per park attempt (`true` = park accepted).
- Every operation additionally returns the ordered trace of the observable
  actions it performed (flag stores, waker constructions, polls, park
  attempts and their outcomes), so that claims about "what happens inside a
  single `execute_task` call" become statements about the trace.
- An exhausted future list or response list leaves the model outcome
  undefined (`none` in the `Option TaskResult` result slot); all theorems
  below are stated so that this case never hides a claim violation.
-/

namespace DatabendExecutor

/-- Error values of `common_exception::ErrorCode`. Only `LogicalError` is
constructed by this source file; `Other` stands for the error values a
processing unit may produce and propagate through the executor. -/
inductive ErrorCode where
  | LogicalError (msg : String)
  | Other (msg : String)
deriving DecidableEq, Repr

/-- Result of executing a task: `Result<usize>` from the source. -/
abbrev TaskResult := Except ErrorCode Nat

instance {ε α : Type} [DecidableEq ε] [DecidableEq α] : DecidableEq (Except ε α) := fun x y =>
  match x, y with
  | Except.ok a, Except.ok b =>
    if h : a = b then Decidable.isTrue (by rw [h])
    else Decidable.isFalse (by intro hc; injection hc; contradiction)
  | Except.error a, Except.error b =>
    if h : a = b then Decidable.isTrue (by rw [h])
    else Decidable.isFalse (by intro hc; injection hc; contradiction)
  | Except.ok _, Except.error _ => Decidable.isFalse (by intro hc; exact Except.noConfusion hc)
  | Except.error _, Except.ok _ => Decidable.isFalse (by intro hc; exact Except.noConfusion hc)

/-- std::task::Poll: one poll of a future either completes with a value or
reports that the computation is not yet finished. -/
inductive Poll (α : Type) where
  | Ready (value : α)
  | Pending
deriving DecidableEq, Repr

/-- The In-Flight Async Task: `ExecutingAsyncTask { finished, future }`.
`finished` models the current value of the shared `Arc<AtomicBool>`
readiness flag; `future` models the boxed future by the outcomes of its
successive polls. -/
structure ExecutingAsyncTask where
  finished : Bool
  future : List (Poll TaskResult)
deriving DecidableEq, Repr

/-- A processing unit handle (`ProcessorPtr`): `process` is the outcome of its
one synchronous step, `async_process` the future its asynchronous step
returns, modelled by its poll outcomes. -/
structure ProcessorPtr where
  process : Except ErrorCode Unit
  async_process : List (Poll TaskResult)
deriving DecidableEq, Repr

/-- The Task Unit held by a worker: `ExecutorTask` from the source. -/
inductive ExecutorTask where
  | None
  | Sync (processor : ProcessorPtr)
  | Async (processor : ProcessorPtr)
  | AsyncSchedule (boxed_future : ExecutingAsyncTask)
deriving DecidableEq, Repr

/-- Per-worker state: `ExecutorWorkerContext { worker_num, task }`. -/
structure ExecutorWorkerContext where
  worker_num : Nat
  task : ExecutorTask
deriving DecidableEq, Repr

/-- `ExecutorWorkerContext::create`. -/
def create (worker_num : Nat) : ExecutorWorkerContext :=
  { worker_num := worker_num, task := ExecutorTask.None }

/-- `ExecutorWorkerContext::has_task`: true iff the held unit is not `None`. -/
def has_task (ctx : ExecutorWorkerContext) : Bool :=
  match ctx.task with
  | ExecutorTask.None => false
  | _ => true

/-- `ExecutorWorkerContext::get_worker_num`. -/
def get_worker_num (ctx : ExecutorWorkerContext) : Nat :=
  ctx.worker_num

/-- `ExecutorWorkerContext::set_task`. -/
def set_task (ctx : ExecutorWorkerContext) (task : ExecutorTask) : ExecutorWorkerContext :=
  { ctx with task := task }

/-- Observable actions performed during one `execute_task` call, in order:
a store to the readiness flag, a construction of a Wake Adapter, one poll of
the future, a park attempt handed to the queue with this worker's identity,
and the queue's answer to it. -/
inductive Event where
  | storeFinished (value : Bool)
  | createWaker
  | poll
  | parkAttempt (worker_num : Nat)
  | parkAccepted
  | parkRejected
deriving DecidableEq, Repr

/-- Number of occurrences of an event in a trace. -/
def countEvent (e : Event) : List Event → Nat
  | [] => 0
  | x :: xs => (if x = e then 1 else 0) + countEvent e xs

/-- The `loop { ... }` body of `ExecutorWorkerContext::schedule_async_task`,
recursing on the remaining poll outcomes of the future. Each iteration
constructs a fresh `ExecutingAsyncTaskWaker` bound to the task's flag and
polls the future once:
- `Poll::Ready(Ok(res))` returns `Ok(0)`;
- `Poll::Ready(Err(cause))` returns `Err(cause)`;
- `Poll::Pending` calls `queue.push_executing_async_task(worker_num, task)`:
  if the queue accepts the park (Rust `None`, modelled by response `true`)
  the call returns `Ok(0)`; if it rejects the park and hands the same task
  back (Rust `Some(t)`, response `false`) the loop continues with that task,
  i.e. with the remaining polls of the same future.
Note the loop body performs no store to the readiness flag. An exhausted
poll list or response list yields the undefined outcome `none`. -/
def schedule_async_task_loop (worker_num : Nat) (future : List (Poll TaskResult))
    (queue : List Bool) : Option TaskResult × List Event :=
  match future with
  | [] => (none, [])
  | p :: rest =>
    match p with
    | Poll.Ready (Except.ok _) =>
        (some (Except.ok 0), [Event.createWaker, Event.poll])
    | Poll.Ready (Except.error cause) =>
        (some (Except.error cause), [Event.createWaker, Event.poll])
    | Poll.Pending =>
      match queue with
      | [] => (none, [Event.createWaker, Event.poll, Event.parkAttempt worker_num])
      | accepted :: qrest =>
        if accepted then
          (some (Except.ok 0),
           [Event.createWaker, Event.poll, Event.parkAttempt worker_num,
            Event.parkAccepted])
        else
          let r := schedule_async_task_loop worker_num rest qrest
          (r.1, Event.createWaker :: Event.poll :: Event.parkAttempt worker_num ::
                Event.parkRejected :: r.2)

/-- `ExecutorWorkerContext::schedule_async_task`: stores `false` into the
task's readiness flag once (`task.finished.store(false, Ordering::Relaxed)`),
then enters the polling loop. -/
def schedule_async_task (worker_num : Nat) (task : ExecutingAsyncTask)
    (queue : List Bool) : Option TaskResult × List Event :=
  let r := schedule_async_task_loop worker_num task.future queue
  (r.1, Event.storeFinished false :: r.2)

/-- `ExecutorWorkerContext::execute_sync_task`: runs the unit's synchronous
step, propagates its error verbatim, and returns `Ok(0)` on success. -/
def execute_sync_task (processor : ProcessorPtr) : TaskResult :=
  match processor.process with
  | Except.ok _ => Except.ok 0
  | Except.error cause => Except.error cause

/-- `ExecutorWorkerContext::execute_async_task`: wraps the unit's
asynchronous computation in a fresh `ExecutingAsyncTask` whose flag is
initialized to `false`, and delegates to `schedule_async_task`. -/
def execute_async_task (worker_num : Nat) (processor : ProcessorPtr)
    (queue : List Bool) : Option TaskResult × List Event :=
  schedule_async_task worker_num
    { finished := false, future := processor.async_process } queue

/-- `ExecutorWorkerContext::execute_task`: replaces the held Task Unit with
`None` (`std::mem::replace(&mut self.task, ExecutorTask::None)`) and
dispatches on the consumed unit. Returns the updated context, the outcome
(`none` marking a model-undefined async run), and the event trace. -/
def execute_task (ctx : ExecutorWorkerContext) (queue : List Bool) :
    ExecutorWorkerContext × Option TaskResult × List Event :=
  let ctx' : ExecutorWorkerContext := { ctx with task := ExecutorTask.None }
  match ctx.task with
  | ExecutorTask.None =>
      (ctx', some (Except.error (ErrorCode.LogicalError "Execute none task.")), [])
  | ExecutorTask.Sync processor =>
      (ctx', some (execute_sync_task processor), [])
  | ExecutorTask.Async processor =>
      let r := execute_async_task ctx.worker_num processor queue
      (ctx', r.1, r.2)
  | ExecutorTask.AsyncSchedule boxed_future =>
      let r := schedule_async_task ctx.worker_num boxed_future queue
      (ctx', r.1, r.2)

/-- `ExecutorWorkerContext::wait_wakeup`. In the source the function body is
empty: the intended blocking wait is present only as the commented-out line
`// condvar.wait(guard);`. The model therefore returns immediately and
performs no action whatsoever. -/
def wait_wakeup (_ctx : ExecutorWorkerContext) : Unit := ()

/-- The Wake Adapter `ExecutingAsyncTaskWaker(Arc<AtomicBool>)`: its only
state is (the value of) the readiness flag it is bound to. -/
structure ExecutingAsyncTaskWaker where
  flag : Bool
deriving DecidableEq, Repr

/-- `ExecutingAsyncTaskWaker::create`: wraps a clone of the shared flag. -/
def ExecutingAsyncTaskWaker.create (flag : Bool) : ExecutingAsyncTaskWaker :=
  { flag := flag }

/-- `ArcWake::wake_by_ref` for `ExecutingAsyncTaskWaker`:
`arc_self.0.store(true, Ordering::Release)`. The release memory ordering is
a visibility guarantee outside a sequential model; the value effect is that
the bound flag becomes `true` and nothing else changes. -/
def ExecutingAsyncTaskWaker.wake_by_ref (_w : ExecutingAsyncTaskWaker) :
    ExecutingAsyncTaskWaker :=
  { flag := true }

/-- One loop iteration whose poll is pending and whose park is rejected:
the loop continues with the same task's remaining polls. -/
theorem loop_reject_step (w : Nat) (rest : List (Poll TaskResult)) (qrest : List Bool) :
    schedule_async_task_loop w (Poll.Pending :: rest) (false :: qrest)
    = ((schedule_async_task_loop w rest qrest).1,
       Event.createWaker :: Event.poll :: Event.parkAttempt w :: Event.parkRejected ::
         (schedule_async_task_loop w rest qrest).2) := rfl

/-- One loop iteration whose poll is pending and whose park is accepted:
the loop returns the reserved completion code. -/
theorem loop_accept_step (w : Nat) (rest : List (Poll TaskResult)) (qrest : List Bool) :
    schedule_async_task_loop w (Poll.Pending :: rest) (true :: qrest)
    = (some (Except.ok 0),
       [Event.createWaker, Event.poll, Event.parkAttempt w, Event.parkAccepted]) := rfl

/-- Every successful outcome produced by the polling loop carries code 0. -/
theorem loop_ok_code_zero (future : List (Poll TaskResult)) :
    ∀ (w : Nat) (q : List Bool) (r : Nat),
      (schedule_async_task_loop w future q).1 = some (Except.ok r) → r = 0 := by
  induction future with
  | nil => intro w q r h; simp [schedule_async_task_loop] at h
  | cons p rest ih =>
    intro w q r h
    cases p with
    | Ready v =>
      cases v with
      | ok a =>
        simp [schedule_async_task_loop] at h
        omega
      | error e => simp [schedule_async_task_loop] at h
    | Pending =>
      cases q with
      | nil => simp [schedule_async_task_loop] at h
      | cons accepted qrest =>
        cases accepted with
        | true =>
          simp [schedule_async_task_loop] at h
          omega
        | false =>
          simp [schedule_async_task_loop] at h
          exact ih w qrest r h

/-- The loop body never stores to the readiness flag: its trace contains no
`storeFinished` event. -/
theorem loop_no_flag_store (future : List (Poll TaskResult)) :
    ∀ (w : Nat) (q : List Bool) (b : Bool),
      countEvent (Event.storeFinished b) (schedule_async_task_loop w future q).2 = 0 := by
  induction future with
  | nil => intro w q b; simp [schedule_async_task_loop, countEvent]
  | cons p rest ih =>
    intro w q b
    cases p with
    | Ready v =>
      cases v with
      | ok a => simp [schedule_async_task_loop, countEvent]
      | error e => simp [schedule_async_task_loop, countEvent]
    | Pending =>
      cases q with
      | nil => simp [schedule_async_task_loop, countEvent]
      | cons accepted qrest =>
        cases accepted with
        | true => simp [schedule_async_task_loop, countEvent]
        | false => simp [schedule_async_task_loop, countEvent, ih]

/-- Shape of a run whose first `n` polls are pending with each park rejected,
followed by a completing poll: the loop polls `n + 1` times in one call,
re-polling immediately after each rejection, and returns the completion or
failure outcome. -/
theorem loop_pending_rejected_repolls (w : Nat) (res : TaskResult)
    (rest : List (Poll TaskResult)) (qrest : List Bool) :
    ∀ n : Nat,
      schedule_async_task_loop w
        (List.replicate n Poll.Pending ++ Poll.Ready res :: rest)
        (List.replicate n false ++ qrest)
      = (some (match res with
               | Except.ok _ => Except.ok 0
               | Except.error e => Except.error e),
         (List.replicate n
           [Event.createWaker, Event.poll, Event.parkAttempt w, Event.parkRejected]).flatten
           ++ [Event.createWaker, Event.poll]) := by
  intro n
  induction n with
  | zero =>
    cases res with
    | ok a => simp [schedule_async_task_loop]
    | error e => simp [schedule_async_task_loop]
  | succ n ih =>
    rw [List.replicate_succ, List.replicate_succ, List.cons_append, List.cons_append,
      loop_reject_step]
    simp [ih, List.replicate_succ, List.append_assoc]

/-- The loop hands a result back to the caller only right after a completed
poll or right after an accepted park: its trace ends in `poll` or in
`parkAccepted`. -/
theorem loop_returns_only_on_ready_or_accept (future : List (Poll TaskResult)) :
    ∀ (w : Nat) (q : List Bool) (r : TaskResult),
      (schedule_async_task_loop w future q).1 = some r →
      (∃ t0, (schedule_async_task_loop w future q).2 = t0 ++ [Event.poll]) ∨
      (∃ t0, (schedule_async_task_loop w future q).2 = t0 ++ [Event.parkAccepted]) := by
  induction future with
  | nil => intro w q r h; simp [schedule_async_task_loop] at h
  | cons p rest ih =>
    intro w q r h
    cases p with
    | Ready v =>
      cases v with
      | ok a =>
        left
        exact ⟨[Event.createWaker], by simp [schedule_async_task_loop]⟩
      | error e =>
        left
        exact ⟨[Event.createWaker], by simp [schedule_async_task_loop]⟩
    | Pending =>
      cases q with
      | nil => simp [schedule_async_task_loop] at h
      | cons accepted qrest =>
        cases accepted with
        | true =>
          right
          exact ⟨[Event.createWaker, Event.poll, Event.parkAttempt w],
            by simp [schedule_async_task_loop]⟩
        | false =>
          simp only [schedule_async_task_loop] at h ⊢
          rcases ih w qrest r h with ⟨t0, ht0⟩ | ⟨t0, ht0⟩
          · left
            refine ⟨Event.createWaker :: Event.poll :: Event.parkAttempt w ::
              Event.parkRejected :: t0, ?_⟩
            simp [ht0]
          · right
            refine ⟨Event.createWaker :: Event.poll :: Event.parkAttempt w ::
              Event.parkRejected :: t0, ?_⟩
            simp [ht0]

/-- C1: whenever a poll yields pending and the queue rejects the park,
handing the same In-Flight Async Task back, the same computation is polled
again immediately within the same `execute_task` call — this may repeat any
number `n` of times (first conjunct: the full run shape, with the trace
showing `n + 1` polls, each rejection immediately followed by a fresh waker
and a re-poll, and the completion or failure outcome returned); and the call
hands a result to the caller only on a completed poll or on an accepted park
(second conjunct: every defined return's trace ends in `poll` or in
`parkAccepted`). -/
theorem c1_rejected_park_repolls_same_call :
    (∀ (w n : Nat) (res : TaskResult) (b : Bool) (rest : List (Poll TaskResult))
        (qrest : List Bool),
      schedule_async_task w
        { finished := b, future := List.replicate n Poll.Pending ++ Poll.Ready res :: rest }
        (List.replicate n false ++ qrest)
      = (some (match res with
               | Except.ok _ => Except.ok 0
               | Except.error e => Except.error e),
         Event.storeFinished false ::
           ((List.replicate n
              [Event.createWaker, Event.poll, Event.parkAttempt w, Event.parkRejected]).flatten
             ++ [Event.createWaker, Event.poll]))) ∧
    (∀ (w : Nat) (t : ExecutingAsyncTask) (q : List Bool) (r : TaskResult),
      (schedule_async_task w t q).1 = some r →
      (∃ t0, (schedule_async_task w t q).2 = t0 ++ [Event.poll]) ∨
      (∃ t0, (schedule_async_task w t q).2 = t0 ++ [Event.parkAccepted])) := by
  constructor
  · intro w n res b rest qrest
    simp [schedule_async_task, loop_pending_rejected_repolls]
  · intro w t q r h
    have h' : (schedule_async_task_loop w t.future q).1 = some r := by
      simpa [schedule_async_task] using h
    rcases loop_returns_only_on_ready_or_accept t.future w q r h' with ⟨t0, ht0⟩ | ⟨t0, ht0⟩
    · exact Or.inl ⟨Event.storeFinished false :: t0, by simp [schedule_async_task, ht0]⟩
    · exact Or.inr ⟨Event.storeFinished false :: t0, by simp [schedule_async_task, ht0]⟩

/-- Witness for C1 at a concrete run: one pending poll, one rejected park,
then a completing poll, all inside one call. -/
theorem c1_rejected_park_repolls_same_call_witness :
    ((schedule_async_task 0
        { finished := false, future := [Poll.Pending, Poll.Ready (Except.ok 7)] }
        [false]).1 = some (Except.ok 0)) ∧
    ((∃ t0, (schedule_async_task 0
        { finished := false, future := [Poll.Pending, Poll.Ready (Except.ok 7)] }
        [false]).2 = t0 ++ [Event.poll]) ∨
     (∃ t0, (schedule_async_task 0
        { finished := false, future := [Poll.Pending, Poll.Ready (Except.ok 7)] }
        [false]).2 = t0 ++ [Event.parkAccepted])) :=
  ⟨rfl, c1_rejected_park_repolls_same_call.2 0
    { finished := false, future := [Poll.Pending, Poll.Ready (Except.ok 7)] }
    [false] (Except.ok 0) rfl⟩

/-- C2 counterexample: in the concrete run whose first park is rejected, the
call performs two polls but stores `false` to the readiness flag only once —
the retry iteration re-polls without clearing the flag again, so it is not
the case that every iteration begins by clearing the flag (that would force
at least as many `storeFinished false` events as `poll` events). -/
theorem c2_counterexample_single_flag_store :
    countEvent (Event.storeFinished false)
      (schedule_async_task 0
        { finished := false, future := [Poll.Pending, Poll.Ready (Except.ok 0)] }
        [false]).2 = 1 ∧
    countEvent Event.poll
      (schedule_async_task 0
        { finished := false, future := [Poll.Pending, Poll.Ready (Except.ok 0)] }
        [false]).2 = 2 := by
  constructor <;> rfl

/-- C2 (amended): `schedule_async_task` clears the readiness flag exactly
once per call, as its very first action before the first waker construction
and poll; retry iterations entered after a rejected park re-poll without
storing to the flag again. -/
theorem c2_flag_cleared_once_at_entry :
    ∀ (w : Nat) (t : ExecutingAsyncTask) (q : List Bool),
      countEvent (Event.storeFinished false) (schedule_async_task w t q).2 = 1 ∧
      countEvent (Event.storeFinished true) (schedule_async_task w t q).2 = 0 ∧
      (schedule_async_task w t q).2.head? = some (Event.storeFinished false) := by
  intro w t q
  refine ⟨?_, ?_, rfl⟩
  · simp [schedule_async_task, countEvent, loop_no_flag_store]
  · simp [schedule_async_task, countEvent, loop_no_flag_store]

/-- C3: `execute_task` replaces the held Task Unit with `None` before
dispatching, so on every path — empty-slot error, synchronous success or
failure, asynchronous runs — the returned context holds `None`, `has_task`
is false, and the worker identity is preserved. -/
theorem c3_task_consumed_exactly_once :
    ∀ (ctx : ExecutorWorkerContext) (q : List Bool),
      (execute_task ctx q).1.task = ExecutorTask.None ∧
      has_task (execute_task ctx q).1 = false ∧
      (execute_task ctx q).1.worker_num = ctx.worker_num := by
  intro ctx q
  cases ctx with
  | mk w t => cases t <;> simp [execute_task, has_task]

/-- C4: `execute_task` on a context whose held unit is `None` fails with the
`LogicalError` invariant-violation error, performs no dispatch (the event
trace is empty), and returns the context unchanged — in particular the
worker identity is unchanged. -/
theorem c4_empty_slot_logical_error :
    ∀ (ctx : ExecutorWorkerContext) (q : List Bool),
      ctx.task = ExecutorTask.None →
      execute_task ctx q
        = (ctx, some (Except.error (ErrorCode.LogicalError "Execute none task.")), []) := by
  intro ctx q h
  cases ctx with
  | mk w t => cases t <;> simp_all [execute_task]

/-- Witness for C4 at the concrete context `create 3`. -/
theorem c4_empty_slot_logical_error_witness :
    (create 3).task = ExecutorTask.None ∧
    execute_task (create 3) []
      = (create 3, some (Except.error (ErrorCode.LogicalError "Execute none task.")), []) :=
  ⟨rfl, c4_empty_slot_logical_error (create 3) [] rfl⟩

/-- C5: an asynchronous computation whose first poll completes makes
`execute_task` return without any park attempt (the trace is exactly the
flag clear, one waker construction and one poll): on success the reserved
completion code 0, on failure that failure verbatim. Stated both for a
resumed in-flight task (`AsyncSchedule`) and for a fresh asynchronous step
(`Async`). -/
theorem c5_first_poll_ready_never_parks :
    ∀ (w : Nat) (b : Bool) (res : TaskResult) (rest : List (Poll TaskResult))
      (pr : Except ErrorCode Unit) (q : List Bool),
      execute_task
        { worker_num := w,
          task := ExecutorTask.AsyncSchedule { finished := b, future := Poll.Ready res :: rest } } q
        = ({ worker_num := w, task := ExecutorTask.None },
           some (match res with
                 | Except.ok _ => Except.ok 0
                 | Except.error e => Except.error e),
           [Event.storeFinished false, Event.createWaker, Event.poll]) ∧
      execute_task
        { worker_num := w,
          task := ExecutorTask.Async { process := pr, async_process := Poll.Ready res :: rest } } q
        = ({ worker_num := w, task := ExecutorTask.None },
           some (match res with
                 | Except.ok _ => Except.ok 0
                 | Except.error e => Except.error e),
           [Event.storeFinished false, Event.createWaker, Event.poll]) := by
  intro w b res rest pr q
  cases res with
  | ok a => exact ⟨rfl, rfl⟩
  | error e => exact ⟨rfl, rfl⟩

/-- Shape of a run whose first `n` polls are pending with each park rejected,
followed by one more pending poll whose park the queue accepts: the loop
returns the reserved completion code `Ok(0)` and its trace ends at the
accepted park, with no poll after it. -/
theorem loop_pending_rejected_then_accepted (w : Nat)
    (rest : List (Poll TaskResult)) (qrest : List Bool) :
    ∀ n : Nat,
      schedule_async_task_loop w
        (List.replicate n Poll.Pending ++ Poll.Pending :: rest)
        (List.replicate n false ++ true :: qrest)
      = (some (Except.ok 0),
         (List.replicate n
           [Event.createWaker, Event.poll, Event.parkAttempt w, Event.parkRejected]).flatten
           ++ [Event.createWaker, Event.poll, Event.parkAttempt w, Event.parkAccepted]) := by
  intro n
  induction n with
  | zero =>
    rw [List.replicate_zero, List.replicate_zero, List.nil_append, List.nil_append,
      loop_accept_step]
    rfl
  | succ n ih =>
    rw [List.replicate_succ, List.replicate_succ, List.cons_append, List.cons_append,
      loop_reject_step]
    simp [ih, List.replicate_succ, List.append_assoc]

/-- C6: whenever a poll of the asynchronous computation yields pending — be
it the first poll or a re-poll entered after any number `n` of rejected
parks — and the queue then accepts the park request, `execute_task` returns
`Ok(0)` to its caller at once: the trace ends at the accepted park, with no
further poll of that computation within the call. Stated both for a resumed
in-flight task (`AsyncSchedule`) and for a fresh asynchronous step
(`Async`). -/
theorem c6_accepted_park_returns_immediately :
    ∀ (w n : Nat) (b : Bool) (rest : List (Poll TaskResult))
      (pr : Except ErrorCode Unit) (qrest : List Bool),
      execute_task
        { worker_num := w,
          task := ExecutorTask.AsyncSchedule
            { finished := b,
              future := List.replicate n Poll.Pending ++ Poll.Pending :: rest } }
        (List.replicate n false ++ true :: qrest)
        = ({ worker_num := w, task := ExecutorTask.None },
           some (Except.ok 0),
           Event.storeFinished false ::
             ((List.replicate n
                [Event.createWaker, Event.poll, Event.parkAttempt w, Event.parkRejected]).flatten
               ++ [Event.createWaker, Event.poll, Event.parkAttempt w,
                   Event.parkAccepted])) ∧
      execute_task
        { worker_num := w,
          task := ExecutorTask.Async
            { process := pr,
              async_process := List.replicate n Poll.Pending ++ Poll.Pending :: rest } }
        (List.replicate n false ++ true :: qrest)
        = ({ worker_num := w, task := ExecutorTask.None },
           some (Except.ok 0),
           Event.storeFinished false ::
             ((List.replicate n
                [Event.createWaker, Event.poll, Event.parkAttempt w, Event.parkRejected]).flatten
               ++ [Event.createWaker, Event.poll, Event.parkAttempt w,
                   Event.parkAccepted])) := by
  intro w n b rest pr qrest
  constructor
  · simp [execute_task, schedule_async_task, loop_pending_rejected_then_accepted]
  · simp [execute_task, execute_async_task, schedule_async_task,
      loop_pending_rejected_then_accepted]

/-- C7: for a synchronous unit, `execute_task`'s outcome is exactly the
unit's single synchronous step's outcome — a failure is propagated verbatim,
a success becomes the reserved completion code 0 — and no async machinery
runs (the trace is empty). -/
theorem c7_sync_outcome_verbatim :
    ∀ (w : Nat) (p : ProcessorPtr) (q : List Bool),
      execute_task { worker_num := w, task := ExecutorTask.Sync p } q
        = ({ worker_num := w, task := ExecutorTask.None },
           some (execute_sync_task p), []) ∧
      (∀ cause, p.process = Except.error cause →
        execute_sync_task p = Except.error cause) ∧
      (∀ u, p.process = Except.ok u → execute_sync_task p = Except.ok 0) := by
  intro w p q
  refine ⟨rfl, ?_, ?_⟩
  · intro cause h
    simp [execute_sync_task, h]
  · intro u h
    simp [execute_sync_task, h]

/-- Witness for C7 at a concrete failing synchronous unit. -/
theorem c7_sync_outcome_verbatim_witness :
    (ProcessorPtr.mk (Except.error (ErrorCode.Other "disk failure")) []).process
      = Except.error (ErrorCode.Other "disk failure") ∧
    execute_sync_task (ProcessorPtr.mk (Except.error (ErrorCode.Other "disk failure")) [])
      = Except.error (ErrorCode.Other "disk failure") :=
  ⟨rfl,
   (c7_sync_outcome_verbatim 0
     (ProcessorPtr.mk (Except.error (ErrorCode.Other "disk failure")) []) []).2.1
     (ErrorCode.Other "disk failure") rfl⟩

/-- C8: triggering the Wake Adapter sets its bound flag to true and changes
nothing else (the adapter's entire state is the flag), and triggering is
idempotent and coalescing: `n + 1` triggers before the next poll leave the
flag exactly as one trigger does. -/
theorem c8_wake_idempotent_coalescing :
    ∀ (wk : ExecutingAsyncTaskWaker) (n : Nat),
      ExecutingAsyncTaskWaker.wake_by_ref wk = { flag := true } ∧
      ExecutingAsyncTaskWaker.wake_by_ref^[n + 1] wk
        = ExecutingAsyncTaskWaker.wake_by_ref wk := by
  intro wk n
  refine ⟨rfl, ?_⟩
  induction n with
  | zero => rfl
  | succ m ih =>
    rw [Function.iterate_succ_apply', ih]
    rfl

/-- C9: `wait_wakeup` as implemented performs no action and returns
immediately for every context — its body is empty, the condition-variable
wait surviving only as a comment — so it never blocks, regardless of the
queue's contents. -/
theorem c9_wait_wakeup_is_noop :
    ∀ ctx : ExecutorWorkerContext, wait_wakeup ctx = () := by
  intro ctx
  rfl

/-- C10: every success return of `execute_task` carries the completion code
0, on every path — synchronous success, asynchronous completion, and an
accepted park — so the return value cannot distinguish a completed task from
a parked one still in flight. -/
theorem c10_success_code_always_zero :
    ∀ (ctx : ExecutorWorkerContext) (q : List Bool) (r : Nat),
      (execute_task ctx q).2.1 = some (Except.ok r) → r = 0 := by
  intro ctx q r h
  cases ctx with
  | mk w t =>
    cases t with
    | None => simp [execute_task] at h
    | Sync p =>
      have h' : execute_sync_task p = Except.ok r := by
        simpa [execute_task] using h
      cases hp : p.process with
      | ok u =>
        simp [execute_sync_task, hp] at h'
        omega
      | error cause => simp [execute_sync_task, hp] at h'
    | Async p =>
      have h' : (schedule_async_task_loop w p.async_process q).1 = some (Except.ok r) := by
        simpa [execute_task, execute_async_task, schedule_async_task] using h
      exact loop_ok_code_zero p.async_process w q r h'
    | AsyncSchedule bf =>
      have h' : (schedule_async_task_loop w bf.future q).1 = some (Except.ok r) := by
        simpa [execute_task, schedule_async_task] using h
      exact loop_ok_code_zero bf.future w q r h'

/-- Witness for C10 at a concrete successful synchronous run. -/
theorem c10_success_code_always_zero_witness :
    (execute_task
      { worker_num := 0, task := ExecutorTask.Sync (ProcessorPtr.mk (Except.ok ()) []) }
      []).2.1 = some (Except.ok 0) ∧ (0 : Nat) = 0 :=
  ⟨rfl, c10_success_code_always_zero
    { worker_num := 0, task := ExecutorTask.Sync (ProcessorPtr.mk (Except.ok ()) []) }
    [] 0 rfl⟩

end DatabendExecutor
